import Mathlib

/-!
Verification development for a crypto market-data pipeline:
fetch → analyze → write spreadsheet → upload to cloud storage, on a
5-minute schedule.  The definitions below are a shallow embedding of
`crypto_analysis_gdrive.py`; theorems settle the specification claims.
-/

namespace Crypto

/-- One row of the fetched snapshot: the columns kept and renamed by
`fetch_crypto_data` (name, symbol, price_usd, market_cap, volume_24h,
price_change_24h). -/
structure Asset where
  name : String
  symbol : String
  price_usd : ℚ
  market_cap : ℚ
  volume_24h : ℚ
  price_change_24h : ℚ
deriving DecidableEq, Repr

/-- The hard-coded Drive folder id (source line 17). -/
def FOLDER_ID : String := "15fCqiIeeo62SRHd8eLPLhtmHF6XJPuX_"

/-- The fixed remote object name (source line 104). -/
def liveFileName : String := "Crypto_Analysis_Live.xlsx"

/-- The timestamped local file name `crypto_data_{timestamp}.xlsx`
(source line 81); `timestamp` is formatted at second resolution. -/
def localFileName (timestamp : String) : String :=
  "crypto_data_" ++ timestamp ++ ".xlsx"

/-- `df.head(5)[['name','market_cap']].to_dict('records')` (source line 67):
the first five rows' (name, market_cap) pairs, in input order. -/
def top_5_by_market_cap (df : List Asset) : List (String × ℚ) :=
  (df.take 5).map (fun a => (a.name, a.market_cap))

/-- `df.nlargest(1, key)` with pandas' default tie policy: the first
element attaining the maximum of `f` (ties broken by input order). -/
def argmaxFirst (f : Asset → ℚ) : List Asset → Option Asset
  | [] => none
  | a :: as =>
    match argmaxFirst f as with
    | none => some a
    | some b => if f a < f b then some b else some a

/-- `df.nsmallest(1, key)` with pandas' default tie policy: the first
element attaining the minimum of `f` (ties broken by input order). -/
def argminFirst (f : Asset → ℚ) : List Asset → Option Asset
  | [] => none
  | a :: as =>
    match argminFirst f as with
    | none => some a
    | some b => if f b < f a then some b else some a

/-- The derived summary built by `analyze_data` (source lines 65-71). -/
structure Analysis where
  timestamp : String
  top_5_by_market_cap : List (String × ℚ)
  average_price : ℚ
  highest_price_change : String × ℚ
  lowest_price_change : String × ℚ
deriving DecidableEq, Repr

/-- `analyze_data` (source lines 63-72).  `now` is the formatted reading of
the system clock taken at line 66.  Selecting record `[0]` of the
nlargest/nsmallest result raises on an empty snapshot, modelled by `none`. -/
def analyze_data (df : List Asset) (now : String) : Option Analysis :=
  match argmaxFirst (fun x => x.price_change_24h) df,
        argminFirst (fun x => x.price_change_24h) df with
  | some hi, some lo =>
    some { timestamp := now
           top_5_by_market_cap := top_5_by_market_cap df
           average_price := (df.map (fun x => x.price_usd)).sum / (df.length : ℚ)
           highest_price_change := (hi.name, hi.price_change_24h)
           lowest_price_change := (lo.name, lo.price_change_24h) }
  | _, _ => none

/-- The arithmetic mean as the specification words it: the sum of all
values divided by how many there are. -/
def specArithmeticMean (xs : List ℚ) : ℚ := xs.sum / (xs.length : ℚ)

/-- Observable side effects of one cycle: the local spreadsheet write
(source lines 86-98), the Drive API calls (lines 116-135), the local
cleanup attempt (lines 145-150), and the fetch / analyze steps of `job`
(lines 177-180). -/
inductive Action where
  | fetchHttp
  | analyzed
  | writeLocal (path : String)
  | driveCreate (folder fileName : String)
  | driveUpdate (fileId : String)
  | drivePermission (fileId ptype role : String)
  | deleteLocal (path : String)
  | logDeleteWarning
deriving DecidableEq, Repr

/-- Result of `update_excel_and_upload`: its return-or-raise outcome, the
value of the global `FILE_ID` afterwards, and the side effects in order. -/
structure UploadResult where
  ret : Except String String
  fileId : Option String
  actions : List Action
deriving Repr

/-- `update_excel_and_upload` (source lines 74-156).  `fileId?` is the
global `FILE_ID` on entry; `timestamp` the second-resolution stamp of
line 80; `newId` the identifier Drive would assign on a create;
`uploadFails` whether the create/update call raises `HttpError`;
`deleteFails` whether `os.remove` raises.  The `finally` block attempts
the local deletion on every path; a deletion error is caught and only
logged; an upload error is re-raised after cleanup (lines 139-156). -/
def update_excel_and_upload (fileId? : Option String) (timestamp newId : String)
    (uploadFails deleteFails : Bool) : UploadResult :=
  let localFile := localFileName timestamp
  let uploadStep : List Action × Option String × Bool :=
    match fileId? with
    | some fid =>
      ([Action.driveUpdate fid], some fid, !uploadFails)
    | none =>
      if uploadFails then
        ([Action.driveCreate FOLDER_ID liveFileName], none, false)
      else
        ([Action.driveCreate FOLDER_ID liveFileName,
          Action.drivePermission newId "anyone" "reader"], some newId, true)
  let cleanup : List Action :=
    Action.deleteLocal localFile :: (if deleteFails then [Action.logDeleteWarning] else [])
  { ret :=
      if uploadStep.2.2 then
        Except.ok (uploadStep.2.1.getD "")
      else
        Except.error "HttpError"
    fileId := uploadStep.2.1
    actions := Action.writeLocal localFile :: uploadStep.1 ++ cleanup }

/-- What the single fetch attempt of `fetch_crypto_data` ran into:
a well-formed response, a transport error (`requests.get` raising), or a
malformed/unexpected-shape body (`json`/DataFrame column access raising). -/
inductive FetchOutcome where
  | ok (rows : List Asset)
  | transportError
  | malformed
deriving DecidableEq, Repr

/-- `fetch_crypto_data` (source lines 32-61): returns the snapshot on
success and `None` on any failure, catching the exception (lines 59-61). -/
def fetch_crypto_data : FetchOutcome → Option (List Asset)
  | FetchOutcome.ok rows => some rows
  | FetchOutcome.transportError => none
  | FetchOutcome.malformed => none

/-- One cycle of `job` (source lines 172-195).  Returns the global
`FILE_ID` after the cycle and the cycle's side-effect trace.  `job`
catches every exception of the cycle body (lines 194-195), so the result
type has no error case: a failed analysis or upload only cuts the trace
short. -/
def job (outcome : FetchOutcome) (now timestamp newId : String)
    (fileId? : Option String) (uploadFails deleteFails : Bool) :
    Option String × List Action :=
  match fetch_crypto_data outcome with
  | none => (fileId?, [Action.fetchHttp])
  | some df =>
    match analyze_data df now with
    | none => (fileId?, [Action.fetchHttp, Action.analyzed])
    | some _ =>
      let r := update_excel_and_upload fileId? timestamp newId uploadFails deleteFails
      (r.fileId, Action.fetchHttp :: Action.analyzed :: r.actions)

/-- The per-cycle inputs the environment supplies: the fetch outcome, the
two clock readings (line 66 and line 80), the id Drive would assign, and
the two failure switches. -/
structure CycleInput where
  outcome : FetchOutcome
  now : String
  timestamp : String
  newId : String
  uploadFails : Bool
  deleteFails : Bool
deriving DecidableEq, Repr

/-- The scheduler loop (source lines 197-206) running the given cycles in
order, single-threadedly: each `job` call finishes before the next starts.
Actions are tagged with the index of the cycle that performed them;
`i` is the index of the first cycle, `fid` the global `FILE_ID`. -/
def runCyclesFrom (fid : Option String) (i : Nat) :
    List CycleInput → Option String × List (Nat × Action)
  | [] => (fid, [])
  | c :: cs =>
    let r := job c.outcome c.now c.timestamp c.newId fid c.uploadFails c.deleteFails
    let rest := runCyclesFrom r.1 (i + 1) cs
    (rest.1, r.2.map (fun a => (i, a)) ++ rest.2)

/-- How the process ends (source lines 162-209): a setup failure is caught
by the outer handler and the process exits before any cycle; otherwise
every scheduled cycle runs. -/
inductive ProcessOutcome where
  | fatalSetup
  | completedAll (fileId : Option String)
deriving DecidableEq, Repr

/-- `main` (source lines 162-209): `setup_google_drive` either raises
(caught at lines 208-209, process exits with no cycle run) or the loop
runs every cycle. -/
def main (setupFails : Bool) (cycles : List CycleInput) :
    ProcessOutcome × List (Nat × Action) :=
  if setupFails then
    (ProcessOutcome.fatalSetup, [])
  else
    let r := runCyclesFrom none 0 cycles
    (ProcessOutcome.completedAll r.1, r.2)

/-- Number of fetch attempts in a tagged trace: one per cycle that ran. -/
def countFetch (tr : List (Nat × Action)) : Nat :=
  tr.countP (fun p => decide (p.2 = Action.fetchHttp))

/-- Cycle `i`'s actions all precede cycle `j`'s actions in the trace:
the two cycles do not interleave. -/
def nonInterleaved (tr : List (Nat × Action)) (i j : Nat) : Prop :=
  ∀ p q (hp : p < tr.length) (hq : q < tr.length),
    (tr.get ⟨p, hp⟩).1 = i → (tr.get ⟨q, hq⟩).1 = j → p < q

/-- The three-asset fixture of the specification's end-to-end scenario:
A with market cap 300 and 24h change +5. -/
def fixtureA : Asset := ⟨"A", "a", 10, 300, 0, 5⟩

/-- Fixture asset B: market cap 500, 24h change -10. -/
def fixtureB : Asset := ⟨"B", "b", 20, 500, 0, -10⟩

/-- Fixture asset C: market cap 100, 24h change +5. -/
def fixtureC : Asset := ⟨"C", "c", 30, 100, 0, 5⟩

end Crypto

namespace Crypto

/-! ### Helper lemmas about the extreme-change selections -/

theorem argmaxFirst_eq_none {f : Asset → ℚ} {l : List Asset} :
    argmaxFirst f l = none ↔ l = [] := by
  cases l with
  | nil => simp [argmaxFirst]
  | cons a as =>
    simp only [argmaxFirst]
    cases argmaxFirst f as with
    | none => simp
    | some b => by_cases hlt : f a < f b <;> simp [hlt]

theorem argminFirst_eq_none {f : Asset → ℚ} {l : List Asset} :
    argminFirst f l = none ↔ l = [] := by
  cases l with
  | nil => simp [argminFirst]
  | cons a as =>
    simp only [argminFirst]
    cases argminFirst f as with
    | none => simp
    | some b => by_cases hlt : f b < f a <;> simp [hlt]

theorem argmaxFirst_mem {f : Asset → ℚ} {l : List Asset} {b : Asset}
    (h : argmaxFirst f l = some b) : b ∈ l := by
  induction l generalizing b with
  | nil => simp [argmaxFirst] at h
  | cons x xs ih =>
    simp only [argmaxFirst] at h
    cases hrec : argmaxFirst f xs with
    | none =>
      rw [hrec] at h
      have h2 : some x = some b := h
      injection h2 with h2
      exact h2 ▸ List.mem_cons_self x xs
    | some c =>
      rw [hrec] at h
      have h2 : (if f x < f c then some c else some x) = some b := h
      by_cases hlt : f x < f c
      · rw [if_pos hlt] at h2
        injection h2 with h2
        exact h2 ▸ List.mem_cons_of_mem x (ih hrec)
      · rw [if_neg hlt] at h2
        injection h2 with h2
        exact h2 ▸ List.mem_cons_self x xs

theorem argminFirst_mem {f : Asset → ℚ} {l : List Asset} {b : Asset}
    (h : argminFirst f l = some b) : b ∈ l := by
  induction l generalizing b with
  | nil => simp [argminFirst] at h
  | cons x xs ih =>
    simp only [argminFirst] at h
    cases hrec : argminFirst f xs with
    | none =>
      rw [hrec] at h
      have h2 : some x = some b := h
      injection h2 with h2
      exact h2 ▸ List.mem_cons_self x xs
    | some c =>
      rw [hrec] at h
      have h2 : (if f c < f x then some c else some x) = some b := h
      by_cases hlt : f c < f x
      · rw [if_pos hlt] at h2
        injection h2 with h2
        exact h2 ▸ List.mem_cons_of_mem x (ih hrec)
      · rw [if_neg hlt] at h2
        injection h2 with h2
        exact h2 ▸ List.mem_cons_self x xs

theorem argmaxFirst_eq_of_strictMax {f : Asset → ℚ} {l : List Asset} {a : Asset}
    (ha : a ∈ l) (h : ∀ b ∈ l, b ≠ a → f b < f a) :
    argmaxFirst f l = some a := by
  induction l with
  | nil => simp at ha
  | cons x xs ih =>
    simp only [argmaxFirst]
    by_cases hax : x = a
    · subst hax
      cases hrec : argmaxFirst f xs with
      | none => rfl
      | some c =>
        have hc : c ∈ xs := argmaxFirst_mem hrec
        have hnlt : ¬ f x < f c := by
          by_cases hcx : c = x
          · subst hcx; exact lt_irrefl _
          · exact not_lt.mpr (le_of_lt (h c (List.mem_cons_of_mem x hc) hcx))
        show (if f x < f c then some c else some x) = some x
        rw [if_neg hnlt]
    · have hmem : a ∈ xs := by
        rcases List.mem_cons.mp ha with h1 | h1
        · exact absurd h1.symm hax
        · exact h1
      have hrec := ih hmem (fun b hb hbne => h b (List.mem_cons_of_mem x hb) hbne)
      have hlt : f x < f a := h x (List.mem_cons_self x xs) hax
      rw [hrec]
      show (if f x < f a then some a else some x) = some a
      rw [if_pos hlt]

theorem argminFirst_eq_of_strictMin {f : Asset → ℚ} {l : List Asset} {a : Asset}
    (ha : a ∈ l) (h : ∀ b ∈ l, b ≠ a → f a < f b) :
    argminFirst f l = some a := by
  induction l with
  | nil => simp at ha
  | cons x xs ih =>
    simp only [argminFirst]
    by_cases hax : x = a
    · subst hax
      cases hrec : argminFirst f xs with
      | none => rfl
      | some c =>
        have hc : c ∈ xs := argminFirst_mem hrec
        have hnlt : ¬ f c < f x := by
          by_cases hcx : c = x
          · subst hcx; exact lt_irrefl _
          · exact not_lt.mpr (le_of_lt (h c (List.mem_cons_of_mem x hc) hcx))
        show (if f c < f x then some c else some x) = some x
        rw [if_neg hnlt]
    · have hmem : a ∈ xs := by
        rcases List.mem_cons.mp ha with h1 | h1
        · exact absurd h1.symm hax
        · exact h1
      have hrec := ih hmem (fun b hb hbne => h b (List.mem_cons_of_mem x hb) hbne)
      have hlt : f a < f x := h x (List.mem_cons_self x xs) hax
      rw [hrec]
      show (if f a < f x then some a else some x) = some a
      rw [if_pos hlt]

/-! ### Inversion of `analyze_data` -/

theorem analyze_data_some_inv {df : List Asset} {now : String} {a : Analysis}
    (h : analyze_data df now = some a) :
    ∃ hi lo, argmaxFirst (fun x => x.price_change_24h) df = some hi ∧
      argminFirst (fun x => x.price_change_24h) df = some lo ∧
      a = { timestamp := now
            top_5_by_market_cap := top_5_by_market_cap df
            average_price := (df.map (fun x => x.price_usd)).sum / (df.length : ℚ)
            highest_price_change := (hi.name, hi.price_change_24h)
            lowest_price_change := (lo.name, lo.price_change_24h) } := by
  unfold analyze_data at h
  cases hmax : argmaxFirst (fun x => x.price_change_24h) df with
  | none => rw [hmax] at h; simp at h
  | some hi =>
    cases hmin : argminFirst (fun x => x.price_change_24h) df with
    | none => rw [hmax, hmin] at h; simp at h
    | some lo =>
      rw [hmax, hmin] at h
      simp only [Option.some.injEq] at h
      exact ⟨hi, lo, rfl, rfl, h.symm⟩

/-! ### Claim C1 -/

/-- C1, counterexample: on the fixture snapshot presented in the order
[A (cap 300), B (cap 500), C (cap 100)], `analyze_data` does not return
top_5 = [B, A, C]: it takes the first rows as they come (`df.head(5)`),
so it returns [A, B, C]. -/
theorem claim1_fixture_counterexample :
    ¬ ((analyze_data [fixtureA, fixtureB, fixtureC] "t").map
        (fun a => a.top_5_by_market_cap) = some [("B", 500), ("A", 300), ("C", 100)]) := by
  norm_num [analyze_data, argmaxFirst, argminFirst, top_5_by_market_cap,
    fixtureA, fixtureB, fixtureC]

/-- C1, amended: `analyze_data` keeps the first min(5, n) records, so for
every snapshot already in descending market-cap order (as every valid
fetched snapshot is) the top-5 list has length min(5, n) — exactly 5 for a
50-row snapshot — and is a subsequence of the snapshot in descending
market-cap order; for the fixture presented in descending market-cap
order [B, A, C], top_5 = [B, A, C]. -/
theorem claim1_top5_of_sorted_snapshot (df : List Asset) (now : String) (a : Analysis)
    (hsorted : df.Pairwise (fun p q => q.market_cap ≤ p.market_cap))
    (h : analyze_data df now = some a) :
    a.top_5_by_market_cap.length = min 5 df.length ∧
    (df.length = 50 → a.top_5_by_market_cap.length = 5) ∧
    List.Sublist a.top_5_by_market_cap (df.map (fun x => (x.name, x.market_cap))) ∧
    a.top_5_by_market_cap.Pairwise (fun p q => q.2 ≤ p.2) ∧
    (∀ t2 a2, analyze_data [fixtureB, fixtureA, fixtureC] t2 = some a2 →
      a2.top_5_by_market_cap = [("B", 500), ("A", 300), ("C", 100)]) := by
  obtain ⟨hi, lo, _, _, rfl⟩ := analyze_data_some_inv h
  refine ⟨?_, ?_, ?_, ?_, ?_⟩
  · simp [top_5_by_market_cap]
  · intro h50
    simp [top_5_by_market_cap, h50]
  · exact (List.take_sublist 5 df).map (fun x => (x.name, x.market_cap))
  · exact List.pairwise_map.mpr
      (List.Pairwise.sublist (List.take_sublist 5 df) hsorted)
  · intro t2 a2 h2
    obtain ⟨hi2, lo2, _, _, rfl⟩ := analyze_data_some_inv h2
    rfl

/-- C1, witness: the amended theorem applied to the fixture in descending
market-cap order. -/
theorem claim1_witness :
    ∃ a, analyze_data [fixtureB, fixtureA, fixtureC] "t" = some a ∧
      a.top_5_by_market_cap.length = min 5 3 := by
  have h : analyze_data [fixtureB, fixtureA, fixtureC] "t" =
      some { timestamp := "t"
             top_5_by_market_cap := [("B", 500), ("A", 300), ("C", 100)]
             average_price := 20
             highest_price_change := ("A", 5)
             lowest_price_change := ("B", -10) } := by
    norm_num [analyze_data, argmaxFirst, argminFirst, top_5_by_market_cap,
      fixtureA, fixtureB, fixtureC, Analysis.mk.injEq]
  have hsorted : List.Pairwise
      (fun p q => q.market_cap ≤ p.market_cap) [fixtureB, fixtureA, fixtureC] := by
    norm_num [List.pairwise_cons, fixtureA, fixtureB, fixtureC]
  exact ⟨_, h, (claim1_top5_of_sorted_snapshot _ "t" _ hsorted h).1⟩

/-! ### Claim C2 -/

/-- C2, counterexample: `analyze_data` reads the system clock (line 66),
so two runs on the same snapshot at different clock readings return
unequal Analysis values. -/
theorem claim2_two_runs_differ :
    analyze_data [fixtureA] "2026-10-12 09:00:00" ≠
      analyze_data [fixtureA] "2026-10-12 09:00:01" := by
  norm_num [analyze_data, argmaxFirst, argminFirst, top_5_by_market_cap,
    fixtureA, Analysis.mk.injEq]
  decide

/-- C2, amended: `analyze_data` is a pure, deterministic function of the
snapshot and the clock reading: every field except the timestamp depends
only on the snapshot, and with equal clock readings the whole Analysis
values are equal. -/
theorem claim2_deterministic_given_clock (df : List Asset) (t1 t2 : String)
    (a1 a2 : Analysis)
    (h1 : analyze_data df t1 = some a1) (h2 : analyze_data df t2 = some a2) :
    a1.top_5_by_market_cap = a2.top_5_by_market_cap ∧
    a1.average_price = a2.average_price ∧
    a1.highest_price_change = a2.highest_price_change ∧
    a1.lowest_price_change = a2.lowest_price_change ∧
    (t1 = t2 → a1 = a2) := by
  obtain ⟨hi1, lo1, e1, e2, rfl⟩ := analyze_data_some_inv h1
  obtain ⟨hi2, lo2, e3, e4, rfl⟩ := analyze_data_some_inv h2
  have ehi : hi1 = hi2 := Option.some.inj (e1.symm.trans e3)
  have elo : lo1 = lo2 := Option.some.inj (e2.symm.trans e4)
  subst ehi
  subst elo
  refine ⟨rfl, rfl, rfl, rfl, ?_⟩
  intro h12
  rw [h12]

/-- C2, witness: the amended theorem applied to a concrete snapshot at two
different clock readings. -/
theorem claim2_witness :
    ∃ a1 a2, analyze_data [fixtureA] "09:00:00" = some a1 ∧
      analyze_data [fixtureA] "09:00:01" = some a2 ∧
      a1.average_price = a2.average_price := by
  have h1 : analyze_data [fixtureA] "09:00:00" =
      some { timestamp := "09:00:00"
             top_5_by_market_cap := [("A", 300)]
             average_price := 10
             highest_price_change := ("A", 5)
             lowest_price_change := ("A", 5) } := by
    norm_num [analyze_data, argmaxFirst, argminFirst, top_5_by_market_cap,
      fixtureA, Analysis.mk.injEq]
  have h2 : analyze_data [fixtureA] "09:00:01" =
      some { timestamp := "09:00:01"
             top_5_by_market_cap := [("A", 300)]
             average_price := 10
             highest_price_change := ("A", 5)
             lowest_price_change := ("A", 5) } := by
    norm_num [analyze_data, argmaxFirst, argminFirst, top_5_by_market_cap,
      fixtureA, Analysis.mk.injEq]
  exact ⟨_, _, h1, h2,
    (claim2_deterministic_given_clock [fixtureA] "09:00:00" "09:00:01" _ _ h1 h2).2.1⟩

/-! ### Claim C6 -/

/-- C6: the highest/lowest 24h-change selections use numeric order on the
signed percentage with ties broken by input order: a snapshot with one
strictly maximal and one strictly minimal change value yields exactly
those records, and on a two-element tie the first element is selected for
both extremes. -/
theorem claim6_extreme_change_selection (df : List Asset) (now : String) (a : Analysis)
    (h : analyze_data df now = some a)
    (hi lo : Asset) (hhi : hi ∈ df) (hlo : lo ∈ df)
    (hmax : ∀ b ∈ df, b ≠ hi → b.price_change_24h < hi.price_change_24h)
    (hmin : ∀ b ∈ df, b ≠ lo → lo.price_change_24h < b.price_change_24h) :
    a.highest_price_change = (hi.name, hi.price_change_24h) ∧
    a.lowest_price_change = (lo.name, lo.price_change_24h) ∧
    (∀ x y : Asset, x.price_change_24h = y.price_change_24h →
      ∀ a2, analyze_data [x, y] now = some a2 →
        a2.highest_price_change = (x.name, x.price_change_24h) ∧
        a2.lowest_price_change = (x.name, x.price_change_24h)) := by
  obtain ⟨hi2, lo2, e1, e2, rfl⟩ := analyze_data_some_inv h
  have ehi : hi2 = hi :=
    Option.some.inj (e1.symm.trans (argmaxFirst_eq_of_strictMax hhi hmax))
  have elo : lo2 = lo :=
    Option.some.inj (e2.symm.trans (argminFirst_eq_of_strictMin hlo hmin))
  subst ehi
  subst elo
  refine ⟨rfl, rfl, ?_⟩
  intro x y hxy a2 h2
  obtain ⟨hi3, lo3, e3, e4, rfl⟩ := analyze_data_some_inv h2
  have emax : argmaxFirst (fun z => z.price_change_24h) [x, y] = some x := by
    show (if x.price_change_24h < y.price_change_24h then some y else some x) = some x
    rw [if_neg (by rw [hxy]; exact lt_irrefl _)]
  have emin : argminFirst (fun z => z.price_change_24h) [x, y] = some x := by
    show (if y.price_change_24h < x.price_change_24h then some y else some x) = some x
    rw [if_neg (by rw [hxy]; exact lt_irrefl _)]
  have e5 : hi3 = x := Option.some.inj (e3.symm.trans emax)
  have e6 : lo3 = x := Option.some.inj (e4.symm.trans emin)
  subst e5
  subst e6
  exact ⟨rfl, rfl⟩

/-- C6, witness: a snapshot with a strict maximum (+7) and strict minimum
(-10) of the 24h change; exactly those records are selected. -/
theorem claim6_witness :
    ∃ a, analyze_data [⟨"X", "x", 1, 50, 0, 7⟩, fixtureB, fixtureA] "t" = some a ∧
      a.highest_price_change = ("X", 7) ∧
      a.lowest_price_change = ("B", -10) := by
  have h : analyze_data [⟨"X", "x", 1, 50, 0, 7⟩, fixtureB, fixtureA] "t" =
      some { timestamp := "t"
             top_5_by_market_cap := [("X", 50), ("B", 500), ("A", 300)]
             average_price := 31/3
             highest_price_change := ("X", 7)
             lowest_price_change := ("B", -10) } := by
    norm_num [analyze_data, argmaxFirst, argminFirst, top_5_by_market_cap,
      fixtureA, fixtureB, Analysis.mk.injEq]
  have hsel := claim6_extreme_change_selection _ "t" _ h
    ⟨"X", "x", 1, 50, 0, 7⟩ fixtureB
    (by simp) (by simp)
    (by
      intro b hb hbne
      simp only [List.mem_cons, List.not_mem_nil, or_false] at hb
      rcases hb with rfl | rfl | rfl
      · exact absurd rfl hbne
      · norm_num [fixtureB]
      · norm_num [fixtureA])
    (by
      intro b hb hbne
      simp only [List.mem_cons, List.not_mem_nil, or_false] at hb
      rcases hb with rfl | rfl | rfl
      · norm_num [fixtureB]
      · exact absurd rfl hbne
      · norm_num [fixtureA, fixtureB])
  exact ⟨_, h, hsel.1, hsel.2.1⟩

/-! ### Claim C7 -/

/-- C7: `Analysis.average_price` equals the arithmetic mean of all
`price_usd` values of the whole snapshot (not only the top 5); in the
rational-number embedding the equality is exact. -/
theorem claim7_average_price_is_full_mean (df : List Asset) (now : String) (a : Analysis)
    (h : analyze_data df now = some a) :
    a.average_price = specArithmeticMean (df.map (fun x => x.price_usd)) := by
  obtain ⟨hi, lo, _, _, rfl⟩ := analyze_data_some_inv h
  simp [specArithmeticMean]

/-- C7, witness: the mean over a concrete two-row snapshot. -/
theorem claim7_witness :
    ∃ a, analyze_data [fixtureA, fixtureB] "t" = some a ∧
      a.average_price =
        specArithmeticMean ([fixtureA, fixtureB].map (fun x => x.price_usd)) := by
  have h : analyze_data [fixtureA, fixtureB] "t" =
      some { timestamp := "t"
             top_5_by_market_cap := [("A", 300), ("B", 500)]
             average_price := 15
             highest_price_change := ("A", 5)
             lowest_price_change := ("B", -10) } := by
    norm_num [analyze_data, argmaxFirst, argminFirst, top_5_by_market_cap,
      fixtureA, fixtureB, Analysis.mk.injEq]
  exact ⟨_, h, claim7_average_price_is_full_mean _ "t" _ h⟩

/-! ### Claim C10 -/

/-- C10: the Analyzer requires a non-empty snapshot: on the empty snapshot
the extreme-change selections have no record 0 and `analyze_data` fails
(returns no Analysis), while every non-empty snapshot yields one, so
non-emptiness is exactly the unstated precondition. -/
theorem claim10_analyzer_requires_nonempty :
    (∀ now, analyze_data [] now = none) ∧
    (∀ (df : List Asset) (now : String), df ≠ [] →
      ∃ a, analyze_data df now = some a) := by
  constructor
  · intro now
    rfl
  · intro df now hne
    cases hmax : argmaxFirst (fun x => x.price_change_24h) df with
    | none => exact absurd (argmaxFirst_eq_none.mp hmax) hne
    | some hi =>
      cases hmin : argminFirst (fun x => x.price_change_24h) df with
      | none => exact absurd (argminFirst_eq_none.mp hmin) hne
      | some lo =>
        refine ⟨{ timestamp := now
                  top_5_by_market_cap := top_5_by_market_cap df
                  average_price :=
                    (df.map (fun x => x.price_usd)).sum / (df.length : ℚ)
                  highest_price_change := (hi.name, hi.price_change_24h)
                  lowest_price_change := (lo.name, lo.price_change_24h) }, ?_⟩
        unfold analyze_data
        rw [hmax, hmin]

/-- C10, witness: a one-row snapshot is analyzable. -/
theorem claim10_witness :
    ∃ a, analyze_data [fixtureA] "t" = some a :=
  claim10_analyzer_requires_nonempty.2 [fixtureA] "t" (by simp)

/-! ### Helper lemmas about the publisher and the scheduler -/

/-- A remote Drive API request (create, update or permission). -/
def isRemoteCall : Option Action → Prop
  | some (Action.driveCreate _ _) => True
  | some (Action.driveUpdate _) => True
  | some (Action.drivePermission _ _ _) => True
  | _ => False

theorem update_no_fetch (fileId? : Option String) (timestamp newId : String)
    (uploadFails deleteFails : Bool) :
    Action.fetchHttp ∉
      (update_excel_and_upload fileId? timestamp newId uploadFails deleteFails).actions := by
  cases fileId? <;> cases uploadFails <;> cases deleteFails <;>
    simp [update_excel_and_upload]

theorem job_fetch_count (outcome : FetchOutcome) (now timestamp newId : String)
    (fileId? : Option String) (uploadFails deleteFails : Bool) :
    ((job outcome now timestamp newId fileId? uploadFails deleteFails).2.countP
      (fun a => decide (a = Action.fetchHttp))) = 1 := by
  cases outcome with
  | transportError => rfl
  | malformed => rfl
  | ok rows =>
    simp only [job, fetch_crypto_data]
    cases hA : analyze_data rows now with
    | none => rfl
    | some an =>
      have hz : List.countP (fun a => decide (a = Action.fetchHttp))
          (update_excel_and_upload fileId? timestamp newId uploadFails deleteFails).actions = 0 :=
        List.countP_eq_zero.mpr (by
          intro a ha
          simp only [decide_eq_true_eq]
          intro heq
          exact update_no_fetch fileId? timestamp newId uploadFails deleteFails (heq ▸ ha))
      simp [List.countP_cons, hz]

theorem runCyclesFrom_countFetch (cs : List CycleInput) :
    ∀ (fid : Option String) (i : Nat),
      countFetch (runCyclesFrom fid i cs).2 = cs.length := by
  induction cs with
  | nil => intro fid i; rfl
  | cons c cs ih =>
    intro fid i
    simp only [runCyclesFrom, countFetch, List.countP_append, List.countP_map]
    have h1 := job_fetch_count c.outcome c.now c.timestamp c.newId fid
      c.uploadFails c.deleteFails
    have h2 := ih (job c.outcome c.now c.timestamp c.newId fid
      c.uploadFails c.deleteFails).1 (i + 1)
    simp only [countFetch] at h2
    have hfun : ((fun p : Nat × Action => decide (p.2 = Action.fetchHttp)) ∘
        fun a => (i, a)) = (fun a => decide (a = Action.fetchHttp)) := rfl
    rw [hfun, h1, h2]
    simp [List.length_cons, Nat.add_comm]

theorem pairwise_trivial {α : Type} {l : List α} {r : α → α → Prop}
    (h : ∀ a b, r a b) : l.Pairwise r := by
  induction l with
  | nil => exact List.Pairwise.nil
  | cons x xs ih => exact List.Pairwise.cons (fun b _ => h x b) ih

theorem runCyclesFrom_tags_lb (cs : List CycleInput) :
    ∀ (fid : Option String) (i : Nat) (p : Nat × Action),
      p ∈ (runCyclesFrom fid i cs).2 → i ≤ p.1 := by
  induction cs with
  | nil => intro fid i p hp; simp [runCyclesFrom] at hp
  | cons c cs ih =>
    intro fid i p hp
    simp only [runCyclesFrom, List.mem_append] at hp
    rcases hp with hp | hp
    · obtain ⟨a, _, rfl⟩ := List.mem_map.mp hp
      exact le_refl i
    · exact le_trans (Nat.le_succ i) (ih _ (i + 1) p hp)

theorem runCyclesFrom_tags_mono (cs : List CycleInput) :
    ∀ (fid : Option String) (i : Nat),
      ((runCyclesFrom fid i cs).2).Pairwise (fun p q => p.1 ≤ q.1) := by
  induction cs with
  | nil => intro fid i; exact List.Pairwise.nil
  | cons c cs ih =>
    intro fid i
    simp only [runCyclesFrom]
    rw [List.pairwise_append]
    refine ⟨?_, ih _ (i + 1), ?_⟩
    · exact List.pairwise_map.mpr (pairwise_trivial (fun a b => le_refl i))
    · intro x hx y hy
      obtain ⟨a, _, rfl⟩ := List.mem_map.mp hx
      exact le_trans (Nat.le_succ i) (runCyclesFrom_tags_lb cs _ (i + 1) y hy)

theorem nonInterleaved_of_mono {tr : List (Nat × Action)}
    (hmono : tr.Pairwise (fun p q => p.1 ≤ q.1)) {i j : Nat} (hij : i < j) :
    nonInterleaved tr i j := by
  intro p q hp hq hpi hqj
  by_contra hpq
  push_neg at hpq
  rcases Nat.lt_or_ge q p with hlt | hge
  · have hle := List.pairwise_iff_get.mp hmono ⟨q, hq⟩ ⟨p, hp⟩ hlt
    rw [hpi, hqj] at hle
    omega
  · have heq : p = q := le_antisymm hge hpq
    subst heq
    rw [hpi] at hqj
    omega

/-! ### Claim C3 -/

/-- C3: `update_excel_and_upload` branches on the remote handle: with no
prior handle it creates a new remote object in `FOLDER_ID`, records its
identifier in `FILE_ID`, grants public-read (type anyone, role reader)
and returns the new identifier, making no update call; with a prior
handle it issues an update to that object, returns the same identifier,
and makes no permission call. -/
theorem claim3_storage_publisher_branching (timestamp newId fid : String)
    (deleteFails : Bool) :
    ((update_excel_and_upload none timestamp newId false deleteFails).ret =
        Except.ok newId ∧
      (update_excel_and_upload none timestamp newId false deleteFails).fileId =
        some newId ∧
      Action.driveCreate FOLDER_ID liveFileName ∈
        (update_excel_and_upload none timestamp newId false deleteFails).actions ∧
      Action.drivePermission newId "anyone" "reader" ∈
        (update_excel_and_upload none timestamp newId false deleteFails).actions ∧
      (∀ f, Action.driveUpdate f ∉
        (update_excel_and_upload none timestamp newId false deleteFails).actions)) ∧
    ((update_excel_and_upload (some fid) timestamp newId false deleteFails).ret =
        Except.ok fid ∧
      (update_excel_and_upload (some fid) timestamp newId false deleteFails).fileId =
        some fid ∧
      Action.driveUpdate fid ∈
        (update_excel_and_upload (some fid) timestamp newId false deleteFails).actions ∧
      (∀ f t r, Action.drivePermission f t r ∉
        (update_excel_and_upload (some fid) timestamp newId false deleteFails).actions)) := by
  cases deleteFails <;> simp [update_excel_and_upload]

/-! ### Claim C4 -/

/-- C4: on any fetch failure (transport error or malformed response)
`fetch_crypto_data` returns the explicit no-data result instead of
raising, and `job` skips the cycle: no analysis runs, no local file is
written, and no remote call is made. -/
theorem claim4_fetch_failure_skips_cycle (outcome : FetchOutcome)
    (now timestamp newId : String) (fileId? : Option String)
    (uploadFails deleteFails : Bool)
    (hfail : outcome = FetchOutcome.transportError ∨ outcome = FetchOutcome.malformed) :
    fetch_crypto_data outcome = none ∧
    job outcome now timestamp newId fileId? uploadFails deleteFails =
      (fileId?, [Action.fetchHttp]) ∧
    Action.analyzed ∉
      (job outcome now timestamp newId fileId? uploadFails deleteFails).2 ∧
    (∀ p, Action.writeLocal p ∉
      (job outcome now timestamp newId fileId? uploadFails deleteFails).2) ∧
    (∀ o, isRemoteCall (some o) →
      o ∉ (job outcome now timestamp newId fileId? uploadFails deleteFails).2) := by
  rcases hfail with rfl | rfl <;>
    exact ⟨rfl, rfl, by simp [job, fetch_crypto_data],
      fun p => by simp [job, fetch_crypto_data],
      fun o ho hmem => by
        simp only [job, fetch_crypto_data, List.mem_singleton] at hmem
        subst hmem
        simp [isRemoteCall] at ho⟩

/-- C4, witness: the theorem applied to a transport error. -/
theorem claim4_witness :
    fetch_crypto_data FetchOutcome.transportError = none ∧
    job FetchOutcome.transportError "n" "t" "d" none false false =
      (none, [Action.fetchHttp]) :=
  have h := claim4_fetch_failure_skips_cycle FetchOutcome.transportError
    "n" "t" "d" none false false (Or.inl rfl)
  ⟨h.1, h.2.1⟩

/-! ### Claim C5 -/

/-- C5: the local-file deletion is attempted after every create/update
attempt; a deletion failure never changes the outcome of the cycle (it is
only logged), while a failure of the remote call is surfaced to the
caller as an error after the cleanup attempt, and success returns an
identifier. -/
theorem claim5_cleanup_always_attempted (fileId? : Option String)
    (timestamp newId : String) (uploadFails deleteFails : Bool) :
    Action.deleteLocal (localFileName timestamp) ∈
      (update_excel_and_upload fileId? timestamp newId uploadFails deleteFails).actions ∧
    (update_excel_and_upload fileId? timestamp newId uploadFails true).ret =
      (update_excel_and_upload fileId? timestamp newId uploadFails false).ret ∧
    (uploadFails = true → ∃ e,
      (update_excel_and_upload fileId? timestamp newId uploadFails deleteFails).ret =
        Except.error e) ∧
    (uploadFails = false → ∃ i,
      (update_excel_and_upload fileId? timestamp newId uploadFails deleteFails).ret =
        Except.ok i) ∧
    (∃ k m, k < m ∧
      isRemoteCall
        ((update_excel_and_upload fileId? timestamp newId uploadFails deleteFails).actions.get? k) ∧
      (update_excel_and_upload fileId? timestamp newId uploadFails deleteFails).actions.get? m =
        some (Action.deleteLocal (localFileName timestamp))) := by
  refine ⟨?_, ?_, ?_, ?_, ?_⟩
  · cases fileId? <;> cases uploadFails <;> cases deleteFails <;>
      simp [update_excel_and_upload]
  · cases fileId? <;> cases uploadFails <;> simp [update_excel_and_upload]
  · intro h
    subst h
    cases fileId? <;> exact ⟨"HttpError", rfl⟩
  · intro h
    subst h
    cases fileId? with
    | none => exact ⟨newId, rfl⟩
    | some fid => exact ⟨fid, rfl⟩
  · cases fileId? with
    | none =>
      cases uploadFails with
      | true => exact ⟨1, 2, by omega, by simp [update_excel_and_upload, isRemoteCall],
          by simp [update_excel_and_upload]⟩
      | false => exact ⟨1, 3, by omega, by simp [update_excel_and_upload, isRemoteCall],
          by simp [update_excel_and_upload]⟩
    | some fid => exact ⟨1, 2, by omega, by simp [update_excel_and_upload, isRemoteCall],
        by simp [update_excel_and_upload]⟩

/-- C5, witness: the theorem applied to a failing upload with a failing
deletion: the deletion is still attempted and the error is surfaced. -/
theorem claim5_witness :
    Action.deleteLocal (localFileName "20260101_000000") ∈
      (update_excel_and_upload none "20260101_000000" "id1" true true).actions ∧
    ∃ e, (update_excel_and_upload none "20260101_000000" "id1" true true).ret =
      Except.error e :=
  have h := claim5_cleanup_always_attempted none "20260101_000000" "id1" true true
  ⟨h.1, h.2.2.1 rfl⟩

/-! ### Claim C8 -/

/-- C8: a failure inside a cycle is caught at the cycle boundary and the
scheduler keeps ticking: the process ends in `fatalSetup` exactly when
setup fails, and otherwise every scheduled cycle performs its fetch
attempt (one per cycle) no matter which cycles fail. -/
theorem claim8_cycle_failures_never_terminate (setupFails : Bool)
    (cycles : List CycleInput) :
    ((main setupFails cycles).1 = ProcessOutcome.fatalSetup ↔ setupFails = true) ∧
    (setupFails = false →
      countFetch (main setupFails cycles).2 = cycles.length) := by
  constructor
  · cases setupFails <;> simp [main]
  · intro h
    subst h
    show countFetch (runCyclesFrom none 0 cycles).2 = cycles.length
    exact runCyclesFrom_countFetch cycles none 0

/-- C8, witness: with setup succeeding, both of two cycles run (one with a
failing upload), and the process does not end in `fatalSetup`. -/
theorem claim8_witness :
    ¬ ((main false [⟨FetchOutcome.transportError, "n", "t", "d", false, false⟩,
          ⟨FetchOutcome.ok [fixtureA], "n", "t", "d", true, false⟩]).1 =
        ProcessOutcome.fatalSetup) ∧
    countFetch
      (main false [⟨FetchOutcome.transportError, "n", "t", "d", false, false⟩,
        ⟨FetchOutcome.ok [fixtureA], "n", "t", "d", true, false⟩]).2 = 2 :=
  have h := claim8_cycle_failures_never_terminate false
    [⟨FetchOutcome.transportError, "n", "t", "d", false, false⟩,
      ⟨FetchOutcome.ok [fixtureA], "n", "t", "d", true, false⟩]
  ⟨fun hc => by simpa using h.1.mp hc, h.2 rfl⟩

/-! ### Claim C9 -/

/-- C9: for any two distinct cycles, either their local file paths differ,
or the cycles are serialized by the single-threaded scheduler loop so
that a same-second collision cannot cause interference: every action of
the earlier cycle happens before every action of the later one.  (The
naming scheme alone is second-resolution, so the right disjunct is the
one the program provides.) -/
theorem claim9_unique_path_or_serialized (cycles : List CycleInput) (i j : Nat)
    (hij : i < j) :
    (∀ ci cj, cycles.get? i = some ci → cycles.get? j = some cj →
      localFileName ci.timestamp ≠ localFileName cj.timestamp) ∨
    nonInterleaved ((main false cycles).2) i j := by
  right
  have hmono : ((main false cycles).2).Pairwise (fun p q => p.1 ≤ q.1) := by
    show ((runCyclesFrom none 0 cycles).2).Pairwise (fun p q => p.1 ≤ q.1)
    exact runCyclesFrom_tags_mono cycles none 0
  exact nonInterleaved_of_mono hmono hij

/-- C9, witness: the theorem applied to two cycles carrying the very same
second-resolution timestamp (so their local paths collide). -/
theorem claim9_witness :
    (∀ ci cj,
      [(⟨FetchOutcome.transportError, "n", "20260101_000000", "d", false, false⟩ : CycleInput),
        ⟨FetchOutcome.transportError, "n", "20260101_000000", "d", false, false⟩].get? 0 = some ci →
      [(⟨FetchOutcome.transportError, "n", "20260101_000000", "d", false, false⟩ : CycleInput),
        ⟨FetchOutcome.transportError, "n", "20260101_000000", "d", false, false⟩].get? 1 = some cj →
      localFileName ci.timestamp ≠ localFileName cj.timestamp) ∨
    nonInterleaved
      ((main false
        [⟨FetchOutcome.transportError, "n", "20260101_000000", "d", false, false⟩,
          ⟨FetchOutcome.transportError, "n", "20260101_000000", "d", false, false⟩]).2) 0 1 :=
  claim9_unique_path_or_serialized
    [⟨FetchOutcome.transportError, "n", "20260101_000000", "d", false, false⟩,
      ⟨FetchOutcome.transportError, "n", "20260101_000000", "d", false, false⟩] 0 1
    (by decide)

end Crypto
